import Mathlib

/-!
Shallow embedding of the Bing Search MCP server (`src/mcp/server.py`):
the run orchestrator and result extractor `query_agent`, and the tool
facade `bing_search`.  The remote agent client is modelled by an explicit
environment `Env` scripting the outcome of every remote call; the number
of remote calls and sleeps performed is tracked in `CallCounts`.
-/

namespace BingSearch

/-- Message roles of the agent platform (`MessageRole.USER` / `MessageRole.AGENT`). -/
inductive Role where
  | user
  | agent
deriving DecidableEq

/-- URL citation carried by a message's citation metadata:
`url_citation.title` and `url_citation.url`. -/
structure UrlCitation where
  title : String
  url : String
deriving DecidableEq

/-- One element of `response_message.url_citation_annotations`. -/
structure CitationAnn where
  url_citation : UrlCitation
deriving DecidableEq

/-- Thread message: author role, text segments (each `text_messages[i].text.value`)
and the URL-citation metadata entries. -/
structure Msg where
  role : Role
  text_messages : List String
  url_citation_annotations : List CitationAnn
deriving DecidableEq

/-- Run resource: identifier, status string, and the platform's reported last error. -/
structure Run where
  id : String
  status : String
  last_error : String
deriving DecidableEq

/-- Thread resource. -/
structure Thread where
  id : String
deriving DecidableEq

/-- Scripted outcomes of the remote agent client for one `query_agent`
invocation: each field is the result of the corresponding remote call,
`Except.error` modelling a raised exception.  `runs_get` scripts the
successive poll re-fetches; `messages_list` is the thread's message list
in the platform's native order. -/
structure Env where
  get_agent : Except String Unit
  threads_create : Except String Thread
  messages_create : Except String Unit
  runs_create : Except String Run
  runs_get : List (Except String Run)
  messages_list : List Msg

/-- Remote calls and sleeps performed during one `query_agent` invocation. -/
structure CallCounts where
  getAgent : Nat
  threadsCreate : Nat
  messagesCreate : Nat
  runsCreate : Nat
  runsGet : Nat
  sleeps : Nat
deriving DecidableEq

/-- Dictionary returned by `query_agent`.  `error = none` and
`citations = none` model the absence of the corresponding dictionary key. -/
structure QueryResult where
  success : Bool
  error : Option String
  thread_id : String
  run_id : String
  result : String
  citations : Option (List String)
deriving DecidableEq

/-- Run statuses that keep the poll loop going. -/
def activeStatuses : List String := ["queued", "in_progress", "requires_action"]

/-- Poll loop of `query_agent`: while the run status is active, sleep one
interval and re-fetch the run.  The scripted re-fetches come from `script`;
the outer `none` models the loop not reaching a terminal status within the
script (the real loop is unbounded).  Returns the final fetch outcome with
the number of sleeps and of `runs.get` calls performed. -/
def pollRun : Run → List (Except String Run) → Option (Except String Run × Nat × Nat)
  | run, script =>
    if run.status ∈ activeStatuses then
      match script with
      | [] => none
      | Except.error e :: _ => some (Except.error e, 1, 1)
      | Except.ok next :: rest =>
        match pollRun next rest with
        | none => none
        | some (res, s, g) => some (res, s + 1, g + 1)
    else
      some (Except.ok run, 0, 0)

/-- Message-selection loop of `query_agent`: iterate the listed messages in
order, keeping the most recently seen agent-role message. -/
def selectAgentMessage (msgs : List Msg) : Option Msg :=
  msgs.foldl (fun acc m => if m.role = Role.agent then some m else acc) none

/-- Rendering of one citation entry, `"[title](url)"`. -/
def renderCitation (a : CitationAnn) : String :=
  "[" ++ a.url_citation.title ++ "](" ++ a.url_citation.url ++ ")"

/-- Citation-collection loop: render each entry in order and append it only
if that exact rendered string is not already present. -/
def collectCitations (anns : List CitationAnn) : List String :=
  anns.foldl (fun cits a =>
    let c := renderCitation a
    if c ∈ cits then cits else cits ++ [c]) []

/-- Concatenation of the text segments, each followed by a line break. -/
def joinSegments (texts : List String) : String :=
  texts.foldl (fun acc t => acc ++ t ++ "\n") ""

/-- Sources block appended to the result text when the citation list is
non-empty. -/
def sourcesBlock (cits : List String) : String :=
  "\n\n## Sources\n" ++ cits.foldl (fun acc c => acc ++ "- " ++ c ++ "\n") ""

/-- Python `str.strip()` on ASCII whitespace: drop whitespace characters from
both ends. -/
def stripChars (l : List Char) : List Char :=
  ((l.dropWhile Char.isWhitespace).reverse.dropWhile Char.isWhitespace).reverse

/-- String form of `stripChars`. -/
def pyStrip (s : String) : String := String.mk (stripChars s.data)

/-- Success dictionary built from the selected agent message (or from no
message at all when `om = none`). -/
def extractFromMsg (thread_id run_id : String) (om : Option Msg) : QueryResult :=
  let cits := match om with
    | none => []
    | some m => collectCitations m.url_citation_annotations
  let body := match om with
    | none => ""
    | some m => joinSegments m.text_messages
  let raw := body ++ (if cits.isEmpty then "" else sourcesBlock cits)
  { success := true, error := none, thread_id := thread_id, run_id := run_id,
    result := pyStrip raw, citations := some cits }

/-- Result extraction of `query_agent` from the listed thread messages. -/
def extractResult (thread_id run_id : String) (msgs : List Msg) : QueryResult :=
  extractFromMsg thread_id run_id (selectAgentMessage msgs)

/-- Failure dictionary returned when the run's terminal status is `failed`. -/
def failedResult (thread_id run_id last_error : String) : QueryResult :=
  { success := false,
    error := some ("Agent run failed: " ++ last_error),
    thread_id := thread_id, run_id := run_id,
    result := "Error: Agent run failed: " ++ last_error,
    citations := none }

/-- Shallow embedding of `query_agent`: get the agent, create a thread, post
the query message, create a run, poll to a terminal status, then either
report the failed run or extract the response.  `Except.error` models an
exception propagating out of the function; the outer `none` models an
unterminated poll loop. -/
def queryAgent (env : Env) : Option (Except String QueryResult × CallCounts) :=
  match env.get_agent with
  | Except.error e => some (Except.error e, ⟨1, 0, 0, 0, 0, 0⟩)
  | Except.ok _ =>
    match env.threads_create with
    | Except.error e => some (Except.error e, ⟨1, 1, 0, 0, 0, 0⟩)
    | Except.ok thread =>
      match env.messages_create with
      | Except.error e => some (Except.error e, ⟨1, 1, 1, 0, 0, 0⟩)
      | Except.ok _ =>
        match env.runs_create with
        | Except.error e => some (Except.error e, ⟨1, 1, 1, 1, 0, 0⟩)
        | Except.ok run0 =>
          match pollRun run0 env.runs_get with
          | none => none
          | some (Except.error e, s, g) => some (Except.error e, ⟨1, 1, 1, 1, g, s⟩)
          | some (Except.ok finRun, s, g) =>
            if finRun.status = "failed" then
              some (Except.ok (failedResult thread.id run0.id finRun.last_error),
                ⟨1, 1, 1, 1, g, s⟩)
            else
              some (Except.ok (extractResult thread.id run0.id env.messages_list),
                ⟨1, 1, 1, 1, g, s⟩)

/-- Truthiness of an optional environment string (Python: unset or empty is falsy). -/
def truthy : Option String → Bool
  | none => false
  | some s => !s.isEmpty

/-- Process configuration and client state at the time `bing_search` runs:
the two environment identifiers, whether the global client handle is already
present, and whether client construction succeeds when attempted. -/
structure Config where
  endpoint : Option String
  agent_id : Option String
  client_ready : Bool
  init_success : Bool

/-- Payload returned by the `bing_search` tool: either a bare error
dictionary (carrying no identifiers) or the structured dictionary from
`query_agent`. -/
inductive ToolResponse where
  | errPayload (error : String)
  | result (r : QueryResult)
deriving DecidableEq

/-- Error message of the configuration-error payload. -/
def configErrorMsg : String :=
  "Bing Search service is not initialized. Check AZURE_AI_FOUNDRY_PROJECT_ENDPOINT and AZURE_AI_FOUNDRY_AGENT_ID environment variables."

/-- Call counts of a `bing_search` call that never reaches the remote client. -/
def zeroCounts : CallCounts := ⟨0, 0, 0, 0, 0, 0⟩

/-- Shallow embedding of the `bing_search` tool: configuration check, lazy
client setup, then the `query_agent` call wrapped in the exception handler. -/
def bingSearch (cfg : Config) (env : Env) : Option (ToolResponse × CallCounts) :=
  if !(truthy cfg.endpoint && truthy cfg.agent_id) then
    some (ToolResponse.errPayload configErrorMsg, zeroCounts)
  else if !(cfg.client_ready || cfg.init_success) then
    some (ToolResponse.errPayload "Failed to initialize Bing Search client.", zeroCounts)
  else
    match queryAgent env with
    | none => none
    | some (Except.ok r, c) => some (ToolResponse.result r, c)
    | some (Except.error e, c) =>
      some (ToolResponse.errPayload ("Error performing Bing search: " ++ e), c)

/-- Number of run-status values the orchestrator obtains from the client
during one invocation: one from `runs.create` plus one per `runs.get`
re-fetch (every one of these calls returns a run object carrying a status). -/
def statusFetches (c : CallCounts) : Nat := c.runsCreate + c.runsGet

/-- Concatenation of a list of strings (used to restate the accumulator
loops of the extractor in a proof-friendly form). -/
def concatStrings : List String → String
  | [] => ""
  | s :: rest => s ++ concatStrings rest

/-- Recomputation of the Sources section from the citation list alone, as the
spec describes it: the header line followed by one bulleted line per
citation, in the same order. -/
def specSourcesSection (cits : List String) : String :=
  "## Sources" ++ concatStrings (cits.map (fun c => "\n- " ++ c))

/-- First-seen deduplication by repeated membership test and append, the
loop shape used by the citation collector. -/
def dedupKeepFirst (l : List String) : List String :=
  l.foldl (fun acc c => if c ∈ acc then acc else acc ++ [c]) []

/-- Index of the first occurrence of a string in a list (the list's length
when absent); used to state first-seen ordering. -/
def firstIdx : List String → String → Nat
  | [], _ => 0
  | a :: rest, c => if a = c then 0 else firstIdx rest c + 1

/-- An environment whose agent lookup raises. -/
def envAgentMissing : Env :=
  ⟨Except.error "agent not found", Except.ok ⟨"t1"⟩, Except.ok (),
   Except.ok ⟨"r1", "completed", ""⟩, [], []⟩

/-- A configuration with the endpoint identifier unset. -/
def cfgUnset : Config := ⟨none, some "agent-1", false, false⟩

/-- An environment in which every remote call would succeed. -/
def envAny : Env :=
  ⟨Except.ok (), Except.ok ⟨"t1"⟩, Except.ok (),
   Except.ok ⟨"r1", "completed", ""⟩, [], []⟩

/-- An environment whose run ends with status `failed`. -/
def envFailedRun : Env :=
  ⟨Except.ok (), Except.ok ⟨"t1"⟩, Except.ok (),
   Except.ok ⟨"r1", "queued", ""⟩,
   [Except.ok ⟨"r1", "failed", "rate limit exceeded"⟩], []⟩

/-- An environment whose thread holds only a caller-role message. -/
def envNoAgentMsg : Env :=
  ⟨Except.ok (), Except.ok ⟨"t1"⟩, Except.ok (),
   Except.ok ⟨"r1", "queued", ""⟩,
   [Except.ok ⟨"r1", "completed", ""⟩],
   [⟨Role.user, ["hi"], []⟩]⟩

/-- An environment scripting statuses `queued`, `in_progress`, `completed`. -/
def envThreeStatuses : Env :=
  ⟨Except.ok (), Except.ok ⟨"t1"⟩, Except.ok (),
   Except.ok ⟨"r1", "queued", ""⟩,
   [Except.ok ⟨"r1", "in_progress", ""⟩, Except.ok ⟨"r1", "completed", ""⟩],
   []⟩

/-- A fully configured facade state. -/
def cfgReady : Config := ⟨some "https://endpoint.example", some "agent-1", true, false⟩

/-- An environment whose thread creation raises. -/
def envThreadFail : Env :=
  ⟨Except.ok (), Except.error "connection reset", Except.ok (),
   Except.ok ⟨"r1", "completed", ""⟩, [], []⟩

/-- An environment whose agent message carries segments `["A", "B"]` and no
citation metadata. -/
def envTwoSegments : Env :=
  ⟨Except.ok (), Except.ok ⟨"t1"⟩, Except.ok (),
   Except.ok ⟨"r1", "completed", ""⟩, [],
   [⟨Role.agent, ["A", "B"], []⟩]⟩

/-- An agent message carrying a repeated citation entry. -/
def msgRepeatedCitations : Msg :=
  ⟨Role.agent, ["Answer text"],
   [⟨⟨"Title One", "https://one.example"⟩⟩,
    ⟨⟨"Title Two", "https://two.example"⟩⟩,
    ⟨⟨"Title One", "https://one.example"⟩⟩]⟩

/-- An environment whose agent message carries repeated citation entries. -/
def envRepeatedCitations : Env :=
  ⟨Except.ok (), Except.ok ⟨"t1"⟩, Except.ok (),
   Except.ok ⟨"r1", "completed", ""⟩, [],
   [msgRepeatedCitations]⟩

/-! Helper lemmas. -/

/-- Appending cannot erase a non-empty left part. -/
theorem append_ne_empty_left (s t : String) (h : s ≠ "") : s ++ t ≠ "" := by
  intro contra
  apply h
  apply String.ext
  have hd : s.data ++ t.data = [] := by
    have hx := congrArg String.data contra
    simpa using hx
  exact (List.append_eq_nil.mp hd).1

/-- The selection loop keeps exactly the last agent-role message. -/
theorem selectAgentMessage_eq (msgs : List Msg) :
    selectAgentMessage msgs =
      (msgs.filter (fun m => decide (m.role = Role.agent))).getLast? := by
  induction msgs using List.reverseRecOn with
  | nil => rfl
  | append_singleton l m ih =>
    simp only [selectAgentMessage, List.foldl_append, List.foldl_cons, List.foldl_nil,
      List.filter_append] at ih ⊢
    by_cases h : m.role = Role.agent
    · simp [h, List.getLast?_concat]
    · simp [h, ih]

/-- A message list with no agent-role message selects nothing. -/
theorem selectAgentMessage_eq_none (msgs : List Msg)
    (h : ∀ m ∈ msgs, m.role ≠ Role.agent) : selectAgentMessage msgs = none := by
  rw [selectAgentMessage_eq]
  have hf : msgs.filter (fun m => decide (m.role = Role.agent)) = [] := by
    rw [List.filter_eq_nil_iff]
    intro a ha
    simp [h a ha]
  rw [hf]
  rfl

/-! Claim theorems and witnesses. -/

/-- C10: `query_agent` performs the agent lookup before any thread is created:
when the lookup raises, the call fails with that exception having made no
thread-creation, message-posting, run-creation or run-fetch call, so no
thread or run identifier is ever produced on this error path. -/
theorem queryAgent_getAgent_before_thread (env : Env) (e : String)
    (h : env.get_agent = Except.error e) :
    ∃ c, queryAgent env = some (Except.error e, c) ∧
      c.getAgent = 1 ∧ c.threadsCreate = 0 ∧ c.messagesCreate = 0 ∧
      c.runsCreate = 0 ∧ c.runsGet = 0 := by
  refine ⟨⟨1, 0, 0, 0, 0, 0⟩, ?_, rfl, rfl, rfl, rfl, rfl⟩
  simp [queryAgent, h]

/-- Witness for C10 at a concrete environment. -/
theorem queryAgent_getAgent_before_thread_witness :
    ∃ c, queryAgent envAgentMissing = some (Except.error "agent not found", c) ∧
      c.getAgent = 1 ∧ c.threadsCreate = 0 ∧ c.messagesCreate = 0 ∧
      c.runsCreate = 0 ∧ c.runsGet = 0 :=
  queryAgent_getAgent_before_thread envAgentMissing "agent not found" rfl

/-- C5: extraction always uses the last agent-role message in the thread's
native message order: the extracted result is a function of the last
agent-role message alone, and all earlier agent messages are discarded. -/
theorem extractResult_uses_last_agent_message (thread_id run_id : String)
    (msgs : List Msg) :
    extractResult thread_id run_id msgs =
      extractFromMsg thread_id run_id
        ((msgs.filter (fun m => decide (m.role = Role.agent))).getLast?) := by
  unfold extractResult
  rw [selectAgentMessage_eq]

/-- C3: with the remote-endpoint identifier (or agent identifier) unset, the
`bing_search` tool returns the configuration-error payload, whose message
contains `not initialized`, and performs zero remote calls. -/
theorem bingSearch_config_error (cfg : Config) (env : Env)
    (h : truthy cfg.endpoint = false ∨ truthy cfg.agent_id = false) :
    bingSearch cfg env = some (ToolResponse.errPayload configErrorMsg, zeroCounts) ∧
    (∃ p q, configErrorMsg = p ++ "not initialized" ++ q) ∧
    zeroCounts.getAgent = 0 ∧ zeroCounts.threadsCreate = 0 ∧
    zeroCounts.messagesCreate = 0 ∧ zeroCounts.runsCreate = 0 ∧
    zeroCounts.runsGet = 0 ∧ zeroCounts.sleeps = 0 := by
  refine ⟨?_,
    ⟨"Bing Search service is ",
     ". Check AZURE_AI_FOUNDRY_PROJECT_ENDPOINT and AZURE_AI_FOUNDRY_AGENT_ID environment variables.",
     rfl⟩, rfl, rfl, rfl, rfl, rfl, rfl⟩
  unfold bingSearch
  rcases h with h | h <;> simp [h]

/-- C2: a run whose terminal status is `failed` yields a Result with
`success = false`, a non-empty error, both identifiers populated and
non-empty (given the platform supplied non-empty identifiers), and no
citations key. -/
theorem queryAgent_failed_run (env : Env) (t : Thread) (run0 finRun : Run)
    (s g : Nat)
    (hg : env.get_agent = Except.ok ())
    (ht : env.threads_create = Except.ok t)
    (hm : env.messages_create = Except.ok ())
    (hr : env.runs_create = Except.ok run0)
    (hp : pollRun run0 env.runs_get = some (Except.ok finRun, s, g))
    (hf : finRun.status = "failed")
    (hti : t.id ≠ "") (hri : run0.id ≠ "") :
    ∃ r c, queryAgent env = some (Except.ok r, c) ∧
      r.success = false ∧
      (∃ e, r.error = some e ∧ e ≠ "") ∧
      r.thread_id = t.id ∧ r.thread_id ≠ "" ∧
      r.run_id = run0.id ∧ r.run_id ≠ "" ∧
      r.citations = none := by
  refine ⟨failedResult t.id run0.id finRun.last_error, ⟨1, 1, 1, 1, g, s⟩, ?_, rfl,
    ⟨"Agent run failed: " ++ finRun.last_error, rfl,
      append_ne_empty_left _ _ (by decide)⟩, rfl, hti, rfl, hri, rfl⟩
  simp [queryAgent, hg, ht, hm, hr, hp, hf]

/-- Witness for C2 at a concrete environment. -/
theorem queryAgent_failed_run_witness :
    ∃ r c, queryAgent envFailedRun = some (Except.ok r, c) ∧
      r.success = false ∧
      (∃ e, r.error = some e ∧ e ≠ "") ∧
      r.thread_id = "t1" ∧ r.thread_id ≠ "" ∧
      r.run_id = "r1" ∧ r.run_id ≠ "" ∧
      r.citations = none :=
  queryAgent_failed_run envFailedRun ⟨"t1"⟩ ⟨"r1", "queued", ""⟩
    ⟨"r1", "failed", "rate limit exceeded"⟩ 1 1 rfl rfl rfl rfl rfl rfl
    (by decide) (by decide)

/-- C6: a run that completes with no agent-authored message in the thread
yields `success = true`, an empty result text and an empty citation list. -/
theorem queryAgent_no_agent_message (env : Env) (t : Thread) (run0 finRun : Run)
    (s g : Nat)
    (hg : env.get_agent = Except.ok ())
    (ht : env.threads_create = Except.ok t)
    (hm : env.messages_create = Except.ok ())
    (hr : env.runs_create = Except.ok run0)
    (hp : pollRun run0 env.runs_get = some (Except.ok finRun, s, g))
    (hf : finRun.status ≠ "failed")
    (hmsg : ∀ m ∈ env.messages_list, m.role ≠ Role.agent) :
    ∃ r c, queryAgent env = some (Except.ok r, c) ∧
      r.success = true ∧ r.result = "" ∧ r.citations = some [] := by
  have hsel := selectAgentMessage_eq_none env.messages_list hmsg
  refine ⟨extractResult t.id run0.id env.messages_list, ⟨1, 1, 1, 1, g, s⟩,
    ?_, rfl, ?_, ?_⟩
  · simp [queryAgent, hg, ht, hm, hr, hp, hf]
  · unfold extractResult
    rw [hsel]
    rfl
  · unfold extractResult
    rw [hsel]
    rfl

/-- Witness for C6 at a concrete environment. -/
theorem queryAgent_no_agent_message_witness :
    ∃ r c, queryAgent envNoAgentMsg = some (Except.ok r, c) ∧
      r.success = true ∧ r.result = "" ∧ r.citations = some [] :=
  queryAgent_no_agent_message envNoAgentMsg ⟨"t1"⟩ ⟨"r1", "queued", ""⟩
    ⟨"r1", "completed", ""⟩ 1 1 rfl rfl rfl rfl rfl (by decide) (by decide)

/-- C1: with the scripted client reporting status `queued` at run creation and
`in_progress` then `completed` on the two poll re-fetches, the orchestrator
sleeps exactly twice, performs exactly two `runs.get` re-fetches — hence
obtains exactly three run-status values from the client in total — and then
proceeds to extraction. -/
theorem queryAgent_poll_counts (env : Env) (t : Thread)
    (i0 e0 i1 e1 i2 e2 : String)
    (hg : env.get_agent = Except.ok ())
    (ht : env.threads_create = Except.ok t)
    (hm : env.messages_create = Except.ok ())
    (hr : env.runs_create = Except.ok ⟨i0, "queued", e0⟩)
    (hs : env.runs_get = [Except.ok ⟨i1, "in_progress", e1⟩,
                          Except.ok ⟨i2, "completed", e2⟩]) :
    ∃ c, queryAgent env =
        some (Except.ok (extractResult t.id i0 env.messages_list), c) ∧
      c.sleeps = 2 ∧ c.runsGet = 2 ∧ c.runsCreate = 1 ∧ statusFetches c = 3 := by
  have hp : pollRun ⟨i0, "queued", e0⟩ env.runs_get =
      some (Except.ok ⟨i2, "completed", e2⟩, 2, 2) := by
    rw [hs]
    rfl
  refine ⟨⟨1, 1, 1, 1, 2, 2⟩, ?_, rfl, rfl, rfl, rfl⟩
  simp [queryAgent, hg, ht, hm, hr, hp]

/-- Witness for C1 at a concrete environment. -/
theorem queryAgent_poll_counts_witness :
    ∃ c, queryAgent envThreeStatuses =
        some (Except.ok (extractResult "t1" "r1" envThreeStatuses.messages_list), c) ∧
      c.sleeps = 2 ∧ c.runsGet = 2 ∧ c.runsCreate = 1 ∧ statusFetches c = 3 :=
  queryAgent_poll_counts envThreeStatuses ⟨"t1"⟩ "r1" "" "r1" "" "r1" ""
    rfl rfl rfl rfl rfl

/-- C7: for a completed run the result text is the concatenation of the
selected message's text segments, each followed by a line break, trimmed;
in particular segments `["A", "B"]` with no citation metadata give exactly
`"A\nB"` with no Sources section. -/
theorem queryAgent_joins_text_segments (env : Env) (t : Thread)
    (run0 finRun : Run) (s g : Nat) (m : Msg)
    (hg : env.get_agent = Except.ok ())
    (ht : env.threads_create = Except.ok t)
    (hm : env.messages_create = Except.ok ())
    (hr : env.runs_create = Except.ok run0)
    (hp : pollRun run0 env.runs_get = some (Except.ok finRun, s, g))
    (hf : finRun.status ≠ "failed")
    (hsel : selectAgentMessage env.messages_list = some m)
    (hann : m.url_citation_annotations = []) :
    ∃ r c, queryAgent env = some (Except.ok r, c) ∧
      r.result = pyStrip (joinSegments m.text_messages) ∧
      (m.text_messages = ["A", "B"] →
        r.result = "A\nB" ∧ ¬ ∃ p q, r.result = p ++ "## Sources" ++ q) := by
  have hres : (extractResult t.id run0.id env.messages_list).result =
      pyStrip (joinSegments m.text_messages) := by
    unfold extractResult
    rw [hsel]
    unfold extractFromMsg
    simp [hann, collectCitations]
  refine ⟨extractResult t.id run0.id env.messages_list, ⟨1, 1, 1, 1, g, s⟩,
    ?_, hres, ?_⟩
  · simp [queryAgent, hg, ht, hm, hr, hp, hf]
  · intro hAB
    have hconc : (extractResult t.id run0.id env.messages_list).result = "A\nB" := by
      rw [hres, hAB]
      rfl
    refine ⟨hconc, ?_⟩
    rintro ⟨p, q, hpq⟩
    rw [hconc] at hpq
    have hlen := congrArg String.length hpq
    simp only [String.length_append] at hlen
    have h3 : ("A\nB" : String).length = 3 := rfl
    have h10 : ("## Sources" : String).length = 10 := rfl
    rw [h3, h10] at hlen
    omega

/-- Witness for C7 at a concrete environment. -/
theorem queryAgent_joins_text_segments_witness :
    ∃ r c, queryAgent envTwoSegments = some (Except.ok r, c) ∧
      r.result = pyStrip (joinSegments ["A", "B"]) ∧
      ((["A", "B"] : List String) = ["A", "B"] →
        r.result = "A\nB" ∧ ¬ ∃ p q, r.result = p ++ "## Sources" ++ q) :=
  queryAgent_joins_text_segments envTwoSegments ⟨"t1"⟩ ⟨"r1", "completed", ""⟩
    ⟨"r1", "completed", ""⟩ 0 0 ⟨Role.agent, ["A", "B"], []⟩ rfl rfl rfl rfl rfl
    (by decide) rfl rfl

/-- Call counts of any terminating `query_agent` execution: the agent lookup
and each creation step run at most once (no retry). -/
theorem queryAgent_counts_le (env : Env) (res : Except String QueryResult)
    (c : CallCounts) (h : queryAgent env = some (res, c)) :
    c.getAgent ≤ 1 ∧ c.threadsCreate ≤ 1 ∧ c.messagesCreate ≤ 1 ∧
      c.runsCreate ≤ 1 := by
  rcases hG : env.get_agent with e | u
  · have hq : queryAgent env = some (Except.error e, ⟨1, 0, 0, 0, 0, 0⟩) := by
      simp [queryAgent, hG]
    rw [hq] at h
    simp only [Option.some.injEq, Prod.mk.injEq] at h
    rw [← h.2]
    exact ⟨le_rfl, by decide, by decide, by decide⟩
  rcases hT : env.threads_create with e | t
  · have hq : queryAgent env = some (Except.error e, ⟨1, 1, 0, 0, 0, 0⟩) := by
      simp [queryAgent, hG, hT]
    rw [hq] at h
    simp only [Option.some.injEq, Prod.mk.injEq] at h
    rw [← h.2]
    exact ⟨le_rfl, le_rfl, by decide, by decide⟩
  rcases hM : env.messages_create with e | u2
  · have hq : queryAgent env = some (Except.error e, ⟨1, 1, 1, 0, 0, 0⟩) := by
      simp [queryAgent, hG, hT, hM]
    rw [hq] at h
    simp only [Option.some.injEq, Prod.mk.injEq] at h
    rw [← h.2]
    exact ⟨le_rfl, le_rfl, le_rfl, by decide⟩
  rcases hR : env.runs_create with e | run0
  · have hq : queryAgent env = some (Except.error e, ⟨1, 1, 1, 1, 0, 0⟩) := by
      simp [queryAgent, hG, hT, hM, hR]
    rw [hq] at h
    simp only [Option.some.injEq, Prod.mk.injEq] at h
    rw [← h.2]
    exact ⟨le_rfl, le_rfl, le_rfl, le_rfl⟩
  rcases hP : pollRun run0 env.runs_get with _ | ⟨pres, s, g⟩
  · have hq : queryAgent env = none := by
      simp [queryAgent, hG, hT, hM, hR, hP]
    rw [hq] at h
    simp at h
  rcases pres with e | finRun
  · have hq : queryAgent env = some (Except.error e, ⟨1, 1, 1, 1, g, s⟩) := by
      simp [queryAgent, hG, hT, hM, hR, hP]
    rw [hq] at h
    simp only [Option.some.injEq, Prod.mk.injEq] at h
    rw [← h.2]
    exact ⟨le_rfl, le_rfl, le_rfl, le_rfl⟩
  by_cases hf : finRun.status = "failed"
  · have hq : queryAgent env =
        some (Except.ok (failedResult t.id run0.id finRun.last_error),
          ⟨1, 1, 1, 1, g, s⟩) := by
      simp [queryAgent, hG, hT, hM, hR, hP, hf]
    rw [hq] at h
    simp only [Option.some.injEq, Prod.mk.injEq] at h
    rw [← h.2]
    exact ⟨le_rfl, le_rfl, le_rfl, le_rfl⟩
  · have hq : queryAgent env =
        some (Except.ok (extractResult t.id run0.id env.messages_list),
          ⟨1, 1, 1, 1, g, s⟩) := by
      simp [queryAgent, hG, hT, hM, hR, hP, hf]
    rw [hq] at h
    simp only [Option.some.injEq, Prod.mk.injEq] at h
    rw [← h.2]
    exact ⟨le_rfl, le_rfl, le_rfl, le_rfl⟩

/-- C9: when `query_agent` propagates a remote-call exception the facade
returns a bare error payload carrying no identifiers (`errPayload` has no
identifier fields), whereas a structured result — including a
platform-reported run failure, which carries `thread_id` and `run_id` — is
returned verbatim; no creation step is retried and every terminating
execution resolves to a payload. -/
theorem bingSearch_exception_vs_run_failure (cfg : Config) (env : Env)
    (hcfg : (truthy cfg.endpoint && truthy cfg.agent_id) = true)
    (hcl : (cfg.client_ready || cfg.init_success) = true) :
    (∀ e c, queryAgent env = some (Except.error e, c) →
      bingSearch cfg env =
        some (ToolResponse.errPayload ("Error performing Bing search: " ++ e), c)) ∧
    (∀ r c, queryAgent env = some (Except.ok r, c) →
      bingSearch cfg env = some (ToolResponse.result r, c)) ∧
    (∀ res c, queryAgent env = some (res, c) →
      c.getAgent ≤ 1 ∧ c.threadsCreate ≤ 1 ∧ c.messagesCreate ≤ 1 ∧
        c.runsCreate ≤ 1) := by
  refine ⟨?_, ?_, ?_⟩
  · intro e c h
    simp [bingSearch, hcfg, hcl, h]
  · intro r c h
    simp [bingSearch, hcfg, hcl, h]
  · intro res c h
    exact queryAgent_counts_le env res c h

/-- Witness for C9 at a concrete configuration and environment. -/
theorem bingSearch_exception_vs_run_failure_witness :
    (truthy cfgReady.endpoint && truthy cfgReady.agent_id) = true ∧
    (cfgReady.client_ready || cfgReady.init_success) = true ∧
    ((∀ e c, queryAgent envThreadFail = some (Except.error e, c) →
      bingSearch cfgReady envThreadFail =
        some (ToolResponse.errPayload ("Error performing Bing search: " ++ e), c)) ∧
    (∀ r c, queryAgent envThreadFail = some (Except.ok r, c) →
      bingSearch cfgReady envThreadFail = some (ToolResponse.result r, c)) ∧
    (∀ res c, queryAgent envThreadFail = some (res, c) →
      c.getAgent ≤ 1 ∧ c.threadsCreate ≤ 1 ∧ c.messagesCreate ≤ 1 ∧
        c.runsCreate ≤ 1)) :=
  ⟨rfl, rfl, bingSearch_exception_vs_run_failure cfgReady envThreadFail rfl rfl⟩

/-- Witness for C3 at a concrete configuration and environment. -/
theorem bingSearch_config_error_witness :
    (truthy cfgUnset.endpoint = false ∨ truthy cfgUnset.agent_id = false) ∧
    (bingSearch cfgUnset envAny =
        some (ToolResponse.errPayload configErrorMsg, zeroCounts) ∧
      (∃ p q, configErrorMsg = p ++ "not initialized" ++ q) ∧
      zeroCounts.getAgent = 0 ∧ zeroCounts.threadsCreate = 0 ∧
      zeroCounts.messagesCreate = 0 ∧ zeroCounts.runsCreate = 0 ∧
      zeroCounts.runsGet = 0 ∧ zeroCounts.sleeps = 0) :=
  ⟨Or.inl rfl, bingSearch_config_error cfgUnset envAny (Or.inl rfl)⟩

/-! String and deduplication lemmas for the Sources section. -/

/-- A non-empty right part keeps an append non-empty. -/
theorem append_ne_empty_right (s t : String) (h : t ≠ "") : s ++ t ≠ "" := by
  intro contra
  apply h
  apply String.ext
  have hd : s.data ++ t.data = [] := by
    have hx := congrArg String.data contra
    simpa using hx
  exact (List.append_eq_nil.mp hd).2

/-- The head of a left-stripped non-empty character list is not whitespace. -/
theorem head_not_ws (c : Char) (rest : List Char)
    (h : (c :: rest).dropWhile Char.isWhitespace = c :: rest) :
    Char.isWhitespace c = false := by
  cases hx : Char.isWhitespace c
  · rfl
  · rw [List.dropWhile_cons] at h
    rw [if_pos hx] at h
    have hlen := congrArg List.length h
    have hle : (rest.dropWhile Char.isWhitespace).length ≤ rest.length :=
      (List.dropWhile_sublist Char.isWhitespace).length_le
    simp at hlen
    omega

/-- An append whose left part is left-stripped and non-empty is left-stripped. -/
theorem dropWhile_ws_append_left (B X : List Char)
    (hB : B.dropWhile Char.isWhitespace = B) (hne : B ≠ []) :
    (B ++ X).dropWhile Char.isWhitespace = B ++ X := by
  cases B with
  | nil => exact absurd rfl hne
  | cons c rest =>
    have hc := head_not_ws c rest hB
    rw [List.cons_append, List.dropWhile_cons]
    simp [hc]

/-- Left whitespace-stripping distributes over an append whose right part is
already left-stripped. -/
theorem dropWhile_ws_append (A B : List Char)
    (hB : B.dropWhile Char.isWhitespace = B) :
    (A ++ B).dropWhile Char.isWhitespace = A.dropWhile Char.isWhitespace ++ B := by
  induction A with
  | nil => simpa using hB
  | cons c rest ih =>
    rw [List.cons_append, List.dropWhile_cons, List.dropWhile_cons]
    cases hc : Char.isWhitespace c
    · simp [hc]
    · simp [hc, ih]

/-- Stripping a string made of an arbitrary front, a block stripped on both
sides, and one trailing newline leaves the left-stripped front followed by
the block. -/
theorem stripChars_append (A S : List Char)
    (hS : S.dropWhile Char.isWhitespace = S)
    (hrev : S.reverse.dropWhile Char.isWhitespace = S.reverse)
    (hne : S ≠ []) :
    stripChars (A ++ S ++ ['\n']) = A.dropWhile Char.isWhitespace ++ S := by
  have hrevne : S.reverse ≠ [] := by simpa using hne
  unfold stripChars
  rw [List.append_assoc]
  rw [dropWhile_ws_append A (S ++ ['\n'])
    (dropWhile_ws_append_left S ['\n'] hS hne)]
  rw [List.reverse_append, List.reverse_append]
  have h1 : (['\n'] : List Char).reverse = ['\n'] := rfl
  rw [h1, List.append_assoc, List.singleton_append]
  rw [List.dropWhile_cons_of_pos (by decide)]
  rw [dropWhile_ws_append_left S.reverse
    ((A.dropWhile Char.isWhitespace).reverse) hrev hrevne]
  rw [List.reverse_append, List.reverse_reverse, List.reverse_reverse]

/-- Unfolding `concatStrings` over an append. -/
theorem concatStrings_append (a b : List String) :
    concatStrings (a ++ b) = concatStrings a ++ concatStrings b := by
  induction a with
  | nil => simp [concatStrings]
  | cons s rest ih => simp [concatStrings, ih, String.append_assoc]

/-- The bullet accumulator of `sourcesBlock` in closed form. -/
theorem bullets_foldl_eq (l : List String) (init : String) :
    l.foldl (fun acc c => acc ++ "- " ++ c ++ "\n") init =
      init ++ concatStrings (l.map (fun c => "- " ++ c ++ "\n")) := by
  induction l generalizing init with
  | nil => simp [concatStrings]
  | cons c rest ih =>
    rw [List.foldl_cons, ih, List.map_cons]
    simp only [concatStrings]
    simp [String.append_assoc]

/-- The newline shift between the emitted bullet lines and the recomputed
Sources section. -/
theorem newline_shift (cits : List String) :
    ("\n" : String) ++ concatStrings (cits.map (fun c => "- " ++ c ++ "\n")) =
      concatStrings (cits.map (fun c => "\n- " ++ c)) ++ "\n" := by
  induction cits with
  | nil => rfl
  | cons c rest ih =>
    simp only [List.map_cons, concatStrings]
    have h2 : ("\n" : String) ++ "- " = "\n- " := rfl
    rw [← String.append_assoc "\n" ("- " ++ c ++ "\n")
      (concatStrings (rest.map fun s => "- " ++ s ++ "\n"))]
    rw [← String.append_assoc "\n" ("- " ++ c) "\n"]
    rw [← String.append_assoc "\n" "- " c]
    rw [h2]
    rw [String.append_assoc ("\n- " ++ c) "\n"
      (concatStrings (rest.map fun s => "- " ++ s ++ "\n"))]
    rw [ih]
    rw [← String.append_assoc ("\n- " ++ c)
      (concatStrings (rest.map fun s => "\n- " ++ s)) "\n"]

/-- `sourcesBlock` in terms of the recomputed Sources section. -/
theorem sourcesBlock_eq (cits : List String) :
    sourcesBlock cits = ("\n\n" ++ specSourcesSection cits) ++ "\n" := by
  unfold sourcesBlock specSourcesSection
  rw [bullets_foldl_eq, String.empty_append]
  have h0 : ("\n\n## Sources\n" : String) = ("\n\n" ++ "## Sources") ++ "\n" := rfl
  rw [h0]
  rw [String.append_assoc ("\n\n" ++ "## Sources") "\n"
    (concatStrings (cits.map fun s => "- " ++ s ++ "\n"))]
  rw [newline_shift]
  rw [← String.append_assoc ("\n\n" ++ "## Sources")
    (concatStrings (cits.map fun s => "\n- " ++ s)) "\n"]
  rw [String.append_assoc "\n\n" "## Sources"
    (concatStrings (cits.map fun s => "\n- " ++ s))]

/-- The recomputed Sources section is left-stripped (it starts with a hash). -/
theorem specSourcesSection_left_stripped (cits : List String) :
    (specSourcesSection cits).data.dropWhile Char.isWhitespace =
      (specSourcesSection cits).data := by
  have h : (specSourcesSection cits).data =
      ('#' :: "# Sources".data) ++
        (concatStrings (cits.map (fun c => "\n- " ++ c))).data := rfl
  rw [h]
  exact dropWhile_ws_append_left _ _ (by decide) (by decide)

/-- The recomputed Sources section has non-empty character data. -/
theorem specSourcesSection_data_ne_nil (cits : List String) :
    (specSourcesSection cits).data ≠ [] := by
  have h : (specSourcesSection cits).data =
      ('#' :: "# Sources".data) ++
        (concatStrings (cits.map (fun c => "\n- " ++ c))).data := rfl
  rw [h]
  simp

/-- Right-strippedness propagates through an append with a non-empty
right-stripped right part. -/
theorem rs_append (s t : String)
    (hrs : t.data.reverse.dropWhile Char.isWhitespace = t.data.reverse)
    (hne : t ≠ "") :
    (s ++ t).data.reverse.dropWhile Char.isWhitespace = (s ++ t).data.reverse := by
  rw [String.data_append, List.reverse_append]
  have htne : t.data.reverse ≠ [] := by
    intro hc
    rw [List.reverse_eq_nil_iff] at hc
    exact hne (String.ext hc)
  exact dropWhile_ws_append_left _ _ hrs htne

/-- A rendered citation is right-stripped (it ends with a closing paren). -/
theorem renderCitation_rs (a : CitationAnn) :
    (renderCitation a).data.reverse.dropWhile Char.isWhitespace =
      (renderCitation a).data.reverse := by
  unfold renderCitation
  exact rs_append _ ")" (by decide) (by decide)

/-- A rendered citation is non-empty. -/
theorem renderCitation_ne_empty (a : CitationAnn) : renderCitation a ≠ "" := by
  unfold renderCitation
  exact append_ne_empty_right _ ")" (by decide)

/-- For a non-empty citation list of right-stripped non-empty strings the
recomputed Sources section is right-stripped. -/
theorem specSourcesSection_right_stripped (cits : List String) (hne : cits ≠ [])
    (hrs : ∀ c ∈ cits,
      c.data.reverse.dropWhile Char.isWhitespace = c.data.reverse ∧ c ≠ "") :
    (specSourcesSection cits).data.reverse.dropWhile Char.isWhitespace =
      (specSourcesSection cits).data.reverse := by
  rcases List.eq_nil_or_concat cits with h | ⟨L, b, hLb⟩
  · exact absurd h hne
  subst hLb
  rw [List.concat_eq_append]
  have hspec : specSourcesSection (L ++ [b]) =
      ("## Sources" ++ concatStrings (L.map (fun c => "\n- " ++ c))) ++
        ("\n- " ++ b) := by
    unfold specSourcesSection
    rw [List.map_append, concatStrings_append]
    simp only [List.map_cons, List.map_nil, concatStrings]
    rw [String.append_empty, String.append_assoc]
  rw [hspec]
  have hb := hrs b (by rw [List.concat_eq_append]; simp)
  exact rs_append _ _ (rs_append _ _ hb.1 hb.2)
    (append_ne_empty_left "\n- " b (by decide))

/-- The citation collector is the first-seen deduplication of the rendered
citation list. -/
theorem collectCitations_eq (anns : List CitationAnn) :
    collectCitations anns = dedupKeepFirst (anns.map renderCitation) := by
  unfold collectCitations dedupKeepFirst
  rw [List.foldl_map]

/-- One step of `dedupKeepFirst` at the right end. -/
theorem dedupKeepFirst_concat (l : List String) (a : String) :
    dedupKeepFirst (l ++ [a]) =
      if a ∈ dedupKeepFirst l then dedupKeepFirst l else dedupKeepFirst l ++ [a] := by
  unfold dedupKeepFirst
  rw [List.foldl_append]
  rfl

/-- Membership is preserved by first-seen deduplication. -/
theorem mem_dedupKeepFirst (l : List String) : ∀ c, c ∈ dedupKeepFirst l ↔ c ∈ l := by
  induction l using List.reverseRecOn with
  | nil => intro c; simp [dedupKeepFirst]
  | append_singleton l a ih =>
    intro c
    rw [dedupKeepFirst_concat]
    by_cases h : a ∈ dedupKeepFirst l
    · rw [if_pos h, ih]
      have ha : a ∈ l := (ih a).mp h
      simp only [List.mem_append, List.mem_singleton]
      constructor
      · exact fun hc => Or.inl hc
      · rintro (hc | rfl)
        · exact hc
        · exact ha
    · rw [if_neg h]
      simp only [List.mem_append, List.mem_singleton, ih]

/-- First-seen deduplication yields a list without duplicates. -/
theorem nodup_dedupKeepFirst (l : List String) : (dedupKeepFirst l).Nodup := by
  induction l using List.reverseRecOn with
  | nil => simp [dedupKeepFirst]
  | append_singleton l a ih =>
    rw [dedupKeepFirst_concat]
    by_cases h : a ∈ dedupKeepFirst l
    · rw [if_pos h]
      exact ih
    · rw [if_neg h]
      rw [List.nodup_append]
      refine ⟨ih, by simp, ?_⟩
      intro x hx hxa
      rw [List.mem_singleton] at hxa
      subst hxa
      exact h hx

/-- First-occurrence index inside the left part of an append. -/
theorem firstIdx_append_of_mem (l₁ l₂ : List String) (c : String) (h : c ∈ l₁) :
    firstIdx (l₁ ++ l₂) c = firstIdx l₁ c := by
  induction l₁ with
  | nil => cases h
  | cons a rest ih =>
    rw [List.cons_append]
    simp only [firstIdx]
    by_cases hac : a = c
    · rw [if_pos hac, if_pos hac]
    · rw [if_neg hac, if_neg hac]
      have hc : c ∈ rest := by
        rcases List.mem_cons.mp h with h1 | h1
        · exact absurd h1.symm hac
        · exact h1
      rw [ih hc]

/-- First-occurrence index beyond the left part of an append. -/
theorem firstIdx_append_of_not_mem (l₁ l₂ : List String) (c : String) (h : c ∉ l₁) :
    firstIdx (l₁ ++ l₂) c = l₁.length + firstIdx l₂ c := by
  induction l₁ with
  | nil => simp [firstIdx]
  | cons a rest ih =>
    rw [List.cons_append]
    simp only [firstIdx, List.length_cons]
    have hac : a ≠ c := fun hc => h (by rw [hc]; exact List.mem_cons_self c rest)
    rw [if_neg hac, ih (fun hc => h (List.mem_cons_of_mem a hc))]
    omega

/-- A present element's first-occurrence index is below the length. -/
theorem firstIdx_lt_length (l : List String) (c : String) (h : c ∈ l) :
    firstIdx l c < l.length := by
  induction l with
  | nil => cases h
  | cons a rest ih =>
    simp only [firstIdx, List.length_cons]
    by_cases hac : a = c
    · rw [if_pos hac]
      omega
    · rw [if_neg hac]
      have hc : c ∈ rest := by
        rcases List.mem_cons.mp h with h1 | h1
        · exact absurd h1.symm hac
        · exact h1
      have := ih hc
      omega

/-- First-seen deduplication lists elements in order of first occurrence. -/
theorem pairwise_dedupKeepFirst (l : List String) :
    (dedupKeepFirst l).Pairwise (fun a b => firstIdx l a < firstIdx l b) := by
  induction l using List.reverseRecOn with
  | nil => simp [dedupKeepFirst]
  | append_singleton l a ih =>
    rw [dedupKeepFirst_concat]
    by_cases h : a ∈ dedupKeepFirst l
    · rw [if_pos h]
      refine List.Pairwise.imp_of_mem ?_ ih
      intro x y hx hy hxy
      rw [firstIdx_append_of_mem l [a] x ((mem_dedupKeepFirst l x).mp hx),
        firstIdx_append_of_mem l [a] y ((mem_dedupKeepFirst l y).mp hy)]
      exact hxy
    · rw [if_neg h]
      rw [List.pairwise_append]
      refine ⟨List.Pairwise.imp_of_mem ?_ ih, by simp, ?_⟩
      · intro x y hx hy hxy
        rw [firstIdx_append_of_mem l [a] x ((mem_dedupKeepFirst l x).mp hx),
          firstIdx_append_of_mem l [a] y ((mem_dedupKeepFirst l y).mp hy)]
        exact hxy
      · intro x hx b hb
        rw [List.mem_singleton] at hb
        rw [hb]
        have hxl : x ∈ l := (mem_dedupKeepFirst l x).mp hx
        have hal : a ∉ l := fun hc => h ((mem_dedupKeepFirst l a).mpr hc)
        rw [firstIdx_append_of_mem l [a] x hxl,
          firstIdx_append_of_not_mem l [a] a hal]
        have hlt := firstIdx_lt_length l x hxl
        simp only [firstIdx, if_pos rfl]
        omega

/-- Elements collected from citation metadata are right-stripped and
non-empty (each ends in a closing paren). -/
theorem collectCitations_mem_rs (anns : List CitationAnn) :
    ∀ c ∈ collectCitations anns,
      c.data.reverse.dropWhile Char.isWhitespace = c.data.reverse ∧ c ≠ "" := by
  intro c hc
  rw [collectCitations_eq, mem_dedupKeepFirst] at hc
  rcases List.mem_map.mp hc with ⟨a, _, rfl⟩
  exact ⟨renderCitation_rs a, renderCitation_ne_empty a⟩

/-- A result text ending in a Sources block has the recomputed Sources
section as a suffix. -/
theorem result_sources_suffix (body : String) (cits : List String)
    (hne : cits ≠ [])
    (hrs : ∀ c ∈ cits,
      c.data.reverse.dropWhile Char.isWhitespace = c.data.reverse ∧ c ≠ "") :
    ∃ p, pyStrip (body ++ sourcesBlock cits) = p ++ specSourcesSection cits := by
  rw [sourcesBlock_eq]
  refine ⟨String.mk ((body.data ++ ['\n', '\n']).dropWhile Char.isWhitespace), ?_⟩
  have hdata : (body ++ (("\n\n" ++ specSourcesSection cits) ++ "\n")).data =
      (body.data ++ ['\n', '\n']) ++ (specSourcesSection cits).data ++ ['\n'] := by
    simp [String.data_append, List.append_assoc]
  unfold pyStrip
  rw [hdata]
  rw [stripChars_append (body.data ++ ['\n', '\n']) (specSourcesSection cits).data
    (specSourcesSection_left_stripped cits)
    (specSourcesSection_right_stripped cits hne hrs)
    (specSourcesSection_data_ne_nil cits)]
  apply String.ext
  rw [String.data_append]

/-- The extracted result of a message whose collected citation list is
non-empty carries the recomputed Sources section as a suffix. -/
theorem extractFromMsg_suffix (tid rid : String) (m : Msg) (cits : List String)
    (hcits : cits = collectCitations m.url_citation_annotations)
    (hne : cits ≠ []) :
    ∃ p, (extractFromMsg tid rid (some m)).result = p ++ specSourcesSection cits := by
  subst hcits
  have hie : (collectCitations m.url_citation_annotations).isEmpty = false := by
    cases hc : collectCitations m.url_citation_annotations
    · exact absurd hc hne
    · rfl
  have hres : (extractFromMsg tid rid (some m)).result =
      pyStrip (joinSegments m.text_messages ++
        sourcesBlock (collectCitations m.url_citation_annotations)) := by
    unfold extractFromMsg
    simp [hie]
  rw [hres]
  exact result_sources_suffix _ _ hne (collectCitations_mem_rs _)

/-- Any ok-result of `query_agent` is either the failure dictionary of a
failed run or an extraction from the listed messages. -/
theorem queryAgent_ok_cases (env : Env) (r : QueryResult) (c : CallCounts)
    (h : queryAgent env = some (Except.ok r, c)) :
    (∃ tid rid le, r = failedResult tid rid le) ∨
    (∃ tid rid, r = extractResult tid rid env.messages_list) := by
  rcases hG : env.get_agent with e | u
  · rw [show queryAgent env = some (Except.error e, ⟨1, 0, 0, 0, 0, 0⟩) from by
      simp [queryAgent, hG]] at h
    simp at h
  rcases hT : env.threads_create with e | t
  · rw [show queryAgent env = some (Except.error e, ⟨1, 1, 0, 0, 0, 0⟩) from by
      simp [queryAgent, hG, hT]] at h
    simp at h
  rcases hM : env.messages_create with e | u2
  · rw [show queryAgent env = some (Except.error e, ⟨1, 1, 1, 0, 0, 0⟩) from by
      simp [queryAgent, hG, hT, hM]] at h
    simp at h
  rcases hR : env.runs_create with e | run0
  · rw [show queryAgent env = some (Except.error e, ⟨1, 1, 1, 1, 0, 0⟩) from by
      simp [queryAgent, hG, hT, hM, hR]] at h
    simp at h
  rcases hP : pollRun run0 env.runs_get with _ | ⟨pres, s, g⟩
  · rw [show queryAgent env = none from by
      simp [queryAgent, hG, hT, hM, hR, hP]] at h
    simp at h
  rcases pres with e | finRun
  · rw [show queryAgent env = some (Except.error e, ⟨1, 1, 1, 1, g, s⟩) from by
      simp [queryAgent, hG, hT, hM, hR, hP]] at h
    simp at h
  by_cases hf : finRun.status = "failed"
  · left
    refine ⟨t.id, run0.id, finRun.last_error, ?_⟩
    rw [show queryAgent env =
        some (Except.ok (failedResult t.id run0.id finRun.last_error),
          ⟨1, 1, 1, 1, g, s⟩) from by
      simp [queryAgent, hG, hT, hM, hR, hP, hf]] at h
    simp only [Option.some.injEq, Prod.mk.injEq, Except.ok.injEq] at h
    exact h.1.symm
  · right
    refine ⟨t.id, run0.id, ?_⟩
    rw [show queryAgent env =
        some (Except.ok (extractResult t.id run0.id env.messages_list),
          ⟨1, 1, 1, 1, g, s⟩) from by
      simp [queryAgent, hG, hT, hM, hR, hP, hf]] at h
    simp only [Option.some.injEq, Prod.mk.injEq, Except.ok.injEq] at h
    exact h.1.symm

/-- C4: the collected citation list holds exactly one rendered string per
distinct rendered citation, without duplicates, ordered by first occurrence
in the message's citation metadata; and when non-empty, the result text ends
with the Sources section listing exactly those citations in that order. -/
theorem extractResult_citations_dedup (thread_id run_id : String)
    (msgs : List Msg) (m : Msg)
    (hsel : selectAgentMessage msgs = some m) :
    (extractResult thread_id run_id msgs).citations =
      some (collectCitations m.url_citation_annotations) ∧
    (collectCitations m.url_citation_annotations).Nodup ∧
    (∀ c, c ∈ collectCitations m.url_citation_annotations ↔
      c ∈ m.url_citation_annotations.map renderCitation) ∧
    (collectCitations m.url_citation_annotations).Pairwise
      (fun a b => firstIdx (m.url_citation_annotations.map renderCitation) a <
        firstIdx (m.url_citation_annotations.map renderCitation) b) ∧
    (collectCitations m.url_citation_annotations ≠ [] →
      ∃ p, (extractResult thread_id run_id msgs).result =
        p ++ specSourcesSection (collectCitations m.url_citation_annotations)) := by
  refine ⟨?_, ?_, ?_, ?_, ?_⟩
  · unfold extractResult
    rw [hsel]
    rfl
  · rw [collectCitations_eq]
    exact nodup_dedupKeepFirst _
  · intro c
    rw [collectCitations_eq]
    exact mem_dedupKeepFirst _ c
  · rw [collectCitations_eq]
    exact pairwise_dedupKeepFirst _
  · intro hne
    unfold extractResult
    rw [hsel]
    exact extractFromMsg_suffix thread_id run_id m _ rfl hne

/-- Witness for C4 at a message with a repeated citation entry. -/
theorem extractResult_citations_dedup_witness :
    (extractResult "t1" "r1" [msgRepeatedCitations]).citations =
      some (collectCitations msgRepeatedCitations.url_citation_annotations) ∧
    (collectCitations msgRepeatedCitations.url_citation_annotations).Nodup ∧
    (∀ c, c ∈ collectCitations msgRepeatedCitations.url_citation_annotations ↔
      c ∈ msgRepeatedCitations.url_citation_annotations.map renderCitation) ∧
    (collectCitations msgRepeatedCitations.url_citation_annotations).Pairwise
      (fun a b =>
        firstIdx (msgRepeatedCitations.url_citation_annotations.map renderCitation) a <
        firstIdx (msgRepeatedCitations.url_citation_annotations.map renderCitation) b) ∧
    (collectCitations msgRepeatedCitations.url_citation_annotations ≠ [] →
      ∃ p, (extractResult "t1" "r1" [msgRepeatedCitations]).result =
        p ++ specSourcesSection
          (collectCitations msgRepeatedCitations.url_citation_annotations)) :=
  extractResult_citations_dedup "t1" "r1" [msgRepeatedCitations]
    msgRepeatedCitations rfl

/-- C8: round-trip of the Sources section — for every successful result with
a non-empty citation list, recomputing the section from the citation list
alone (header line plus one bulleted line per citation, in dedup order)
yields exactly a suffix of the result text. -/
theorem queryAgent_sources_roundtrip (env : Env) (r : QueryResult)
    (c : CallCounts) (cits : List String)
    (hq : queryAgent env = some (Except.ok r, c))
    (hcit : r.citations = some cits) (hne : cits ≠ []) :
    ∃ p, r.result = p ++ specSourcesSection cits := by
  rcases queryAgent_ok_cases env r c hq with ⟨tid, rid, le, hr⟩ | ⟨tid, rid, hr⟩
  · subst hr
    simp [failedResult] at hcit
  · subst hr
    unfold extractResult at hcit ⊢
    cases hsel : selectAgentMessage env.messages_list with
    | none =>
      rw [hsel] at hcit
      have : ([] : List String) = cits := by
        simpa [extractFromMsg] using hcit
      exact absurd this.symm hne
    | some m =>
      rw [hsel] at hcit
      have hc : collectCitations m.url_citation_annotations = cits := by
        simpa [extractFromMsg] using hcit
      exact extractFromMsg_suffix tid rid m cits hc.symm hne

/-- Witness for C8 at a concrete environment with repeated citations. -/
theorem queryAgent_sources_roundtrip_witness :
    ∃ p, (extractResult "t1" "r1" envRepeatedCitations.messages_list).result =
      p ++ specSourcesSection
        (collectCitations msgRepeatedCitations.url_citation_annotations) :=
  queryAgent_sources_roundtrip envRepeatedCitations
    (extractResult "t1" "r1" envRepeatedCitations.messages_list)
    ⟨1, 1, 1, 1, 0, 0⟩
    (collectCitations msgRepeatedCitations.url_citation_annotations)
    rfl rfl (by decide)

end BingSearch
